import Mathlib

/-!
Verification of the per-language analysis engine of the auditor-addon
repository, against its natural-language specification.

The development shallowly embeds the TypeScript source:
* JavaScript numbers are modelled as exact rationals (`ℚ`); the only
  transcendental used by the source, `Math.tanh`, is modelled as an explicit
  function parameter constrained by the fact the source relies on
  (`tanh 0 = 0`).
* `parseFloat(x.toFixed(2))` is modelled by `round2`.
* JS string primitives (`split`, `trim`, `startsWith`) are modelled by
  executable char-list functions, since Lean's builtin `String` operations do
  not reduce in the kernel.
* The tree-sitter syntax engine is an external collaborator: its outputs
  (captures with spans and texts, parse success/failure) are inputs of the
  embedded functions — exactly the data the source reads from it.
* Mutable `edges.push` loops become `List.foldl` over an accumulator;
  JS `Map`/`Set` state becomes association lists / membership lists.

The file has two parts: first all definitions (the embedding), then the
theorems settling the specification claims.
-/

namespace AuditorAddon

/-! ### JS string primitives -/

/-- JS `content.split('\n')` on char lists. -/
def splitLinesAux : List Char → List (List Char)
  | [] => [[]]
  | c :: cs =>
    if c = '\n' then [] :: splitLinesAux cs
    else
      match splitLinesAux cs with
      | [] => [[c]]
      | l :: ls => (c :: l) :: ls

/-- JS `content.split('\n')`. -/
def jsSplitLines (s : String) : List String :=
  (splitLinesAux s.data).map String.mk

/-- JS `callText.split('::')` on char lists (used by the Rust adapter for
scoped calls). -/
def splitDoubleColonAux : List Char → List (List Char)
  | [] => [[]]
  | ':' :: ':' :: cs => [] :: splitDoubleColonAux cs
  | c :: cs =>
    match splitDoubleColonAux cs with
    | [] => [[c]]
    | l :: ls => (c :: l) :: ls

/-- JS `callText.split('::')`. -/
def jsSplitDoubleColon (s : String) : List String :=
  (splitDoubleColonAux s.data).map String.mk

/-- JS `parts.join('::')`. -/
def jsJoinDoubleColon (parts : List String) : String :=
  String.mk (((parts.map String.data).intersperse [':', ':']).flatten)

/-- JS `s.trim()`: strip whitespace from both ends. -/
def jsTrim (s : String) : String :=
  String.mk
    (((s.data.dropWhile Char.isWhitespace).reverse.dropWhile
      Char.isWhitespace).reverse)

/-- JS `s.startsWith(p)`. -/
def jsStartsWith (s p : String) : Bool :=
  p.data.isPrefixOf s.data

/-- JS `s.includes(p)` for a single-character needle. -/
def jsContainsChar (s : String) (c : Char) : Bool :=
  s.data.contains c

/-- Lexicographic char-list order (models `localeCompare ≤ 0` on ASCII). -/
def charListLe : List Char → List Char → Bool
  | [], _ => true
  | _ :: _, [] => false
  | a :: as, b :: bs =>
    if a = b then charListLe as bs else decide (a.toNat < b.toNat)

/-- String order used to sort edges by target id. -/
def jsStringLe (a b : String) : Bool :=
  charListLe a.data b.data

/-! ### Estimation formula (`BaseAdapter.calculateEstimation`) -/

/-- The seven per-language estimation constants of `AdapterConfig.constants`
(`src/languages/baseAdapter.ts`). -/
structure EstimationConstants where
  baseRateNlocPerDay : ℚ
  complexityMidpoint : ℚ
  complexitySteepness : ℚ
  complexityBenefitCap : ℚ
  complexityPenaltyCap : ℚ
  commentFullBenefitDensity : ℚ
  commentBenefitCap : ℚ
deriving DecidableEq, Repr

/-- `parseFloat(x.toFixed(2))`: round to two decimal places. -/
def round2 (q : ℚ) : ℚ := (round (q * 100) : ℚ) / 100

/-- `BaseAdapter.calculateEstimation` (`src/languages/baseAdapter.ts:383`).
`tanh` abstracts `Math.tanh`. -/
def calculateEstimation (tanh : ℚ → ℚ) (c : EstimationConstants)
    (nloc normalizedComplexity commentDensity : ℚ) : ℚ :=
  let baseHours := (nloc / c.baseRateNlocPerDay) * 8
  let complexityDelta := normalizedComplexity - c.complexityMidpoint
  let complexityShape := tanh (complexityDelta / c.complexitySteepness)
  let complexityAdjustment :=
    if 0 ≤ complexityShape then complexityShape * c.complexityPenaltyCap
    else complexityShape * c.complexityBenefitCap
  let commentDensityProgress := max 0 commentDensity / max 1 c.commentFullBenefitDensity
  let commentShape := tanh (commentDensityProgress * 2.646)
  let commentAdjustment := commentShape * c.commentBenefitCap
  let factor := 1 + complexityAdjustment - commentAdjustment
  let factorClamped := max 0.5 (min (1 + c.complexityPenaltyCap) factor)
  round2 (baseHours * factorClamped)

/-- Constants of `SolidityAdapter` (`src/languages/solidityAdapter.ts`). -/
def solidityConstants : EstimationConstants :=
  ⟨250, 11, 8, 0.25, 0.75, 20, 0.35⟩

/-- Constants of `GoAdapter` (`src/languages/goAdapter.ts`). -/
def goConstants : EstimationConstants :=
  ⟨400, 12, 9, 0.25, 0.50, 15, 0.25⟩

/-- Constants of `CompactAdapter`. -/
def compactConstants : EstimationConstants :=
  ⟨300, 10, 7, 0.3, 0.6, 20, 0.3⟩

/-- Constants of `CairoAdapter` (`src/languages/cairoAdapter.ts`). -/
def cairoConstants : EstimationConstants :=
  ⟨350, 12, 8, 0.3, 0.6, 20, 0.3⟩

/-- Constants of `MoveAdapter` (`src/languages/moveAdapter.ts`). -/
def moveConstants : EstimationConstants :=
  ⟨350, 12, 8, 0.3, 0.6, 20, 0.3⟩

/-- Constants of `NoirAdapter` (`src/languages/noirAdapter.ts`). -/
def noirConstants : EstimationConstants :=
  ⟨300, 10, 7, 0.3, 0.6, 20, 0.3⟩

/-- Constants of `CppAdapter`. -/
def cppConstants : EstimationConstants :=
  ⟨400, 15, 9, 0.3, 0.6, 18, 0.3⟩

/-- Constants of `JavaAdapter`. -/
def javaConstants : EstimationConstants :=
  ⟨400, 13, 9, 0.25, 0.55, 25, 0.25⟩

/-- Constants of `TolkAdapter`. -/
def tolkConstants : EstimationConstants :=
  ⟨300, 15, 9, 0.3, 0.6, 18, 0.3⟩

/-- Constants of `RustAdapter`. -/
def rustConstants : EstimationConstants :=
  ⟨400, 16, 10, 0.3, 0.7, 18, 0.35⟩

/-- Constants of `MasmAdapter`. -/
def masmConstants : EstimationConstants :=
  ⟨350, 10, 7, 0.3, 0.6, 20, 0.3⟩

/-- All language profiles' estimation constants defined in the repository. -/
def allProfiles : List EstimationConstants :=
  [solidityConstants, goConstants, compactConstants, cairoConstants,
   moveConstants, noirConstants, cppConstants, javaConstants,
   tolkConstants, rustConstants, masmConstants]

/-! ### Diff Analyzer (`BaseAdapter.calculateDiffMetrics`) -/

/-- `FileContent` from `src/engine/types.ts`. -/
structure FileContent where
  path : String
  content : String
deriving DecidableEq, Repr

/-- A capture node's 0-indexed line span (`startPosition.row` /
`endPosition.row`). -/
structure RowSpan where
  startRow : ℕ
  endRow : ℕ
deriving DecidableEq, Repr

/-- The data `calculateDiffMetrics` reads from a successfully parsed tree:
the comment-query and branch-query capture spans. -/
structure ParsedTree where
  commentCaptures : List RowSpan
  branchCaptures : List RowSpan
deriving DecidableEq, Repr

/-- Per-file diff status. -/
inductive DiffStatus
  | added
  | modified
  | deleted
deriving DecidableEq, Repr

/-- `DiffFileMetrics` from `src/engine/types.ts`. -/
structure DiffFileMetrics where
  file : String
  status : DiffStatus
  addedLines : ℕ
  removedLines : ℕ
  diffNloc : ℕ
  diffComplexity : ℕ
  commentDensity : ℚ
  estimatedHours : ℚ
deriving DecidableEq, Repr

/-- The diff-mode comment-only test `/^(\/\/|\/\*|\*|#|--|;;)/` applied to the
trimmed line. -/
def isCommentOnlyMarker (line : String) : Bool :=
  let t := jsTrim line
  jsStartsWith t "//" || jsStartsWith t "/*" || jsStartsWith t "*"
    || jsStartsWith t "#" || jsStartsWith t "--" || jsStartsWith t ";;"

/-- The `commentOnlyLines` set built in `calculateDiffMetrics`
(`src/languages/baseAdapter.ts:477-489`): for each comment capture it walks the
0-indexed rows of the span, converts to a 1-indexed `lineNum = i + 1`, and
records it when `lineNum < lines.length` and the trimmed line starts with a
recognized comment marker. Modelled as a list whose membership is the set. -/
def commentOnlyLines (commentCaptures : List RowSpan) (lines : List String) :
    List ℕ :=
  commentCaptures.flatMap (fun cap =>
    ((List.range' cap.startRow (cap.endRow + 1 - cap.startRow)).filter
      (fun i => i + 1 < lines.length && isCommentOnlyMarker (lines.getD i ""))).map
      (fun i => i + 1))

/-- `BaseAdapter.calculateNestingDepthForLine`: the number of branch captures
whose (inclusive, 0-indexed) row span contains `lineNum - 1`. -/
def calculateNestingDepthForLine (lineNum : ℕ) (branches : List RowSpan) : ℕ :=
  branches.countP (fun b => b.startRow ≤ lineNum - 1 && lineNum - 1 ≤ b.endRow)

/-- `BaseAdapter.calculateDiffMetrics` (`src/languages/baseAdapter.ts:424`).
`parse` is the outcome of `parser.parse(file.content)` (`none` = parse
failure); the deleted branch returns before the parser is consulted, which the
embedding renders as the result not depending on `parse`. The JS guard
`lineIdx >= 0 && lineIdx < lines.length` on `lineIdx = lineNum - 1` becomes
`1 ≤ n && n - 1 < lines.length` on the natural number `n`. -/
def calculateDiffMetrics (tanh : ℚ → ℚ) (c : EstimationConstants)
    (file : FileContent) (parse : Option ParsedTree)
    (addedLines removedLines : List ℕ) (status : DiffStatus) : DiffFileMetrics :=
  if status = .deleted then
    { file := file.path, status := status, addedLines := 0,
      removedLines := removedLines.length, diffNloc := 0, diffComplexity := 0,
      commentDensity := 0, estimatedHours := 0 }
  else
    match parse with
    | none =>
      { file := file.path, status := status, addedLines := addedLines.length,
        removedLines := removedLines.length, diffNloc := addedLines.length,
        diffComplexity := 0, commentDensity := 0, estimatedHours := 0 }
    | some tree =>
      let lines := jsSplitLines file.content
      let colines := commentOnlyLines tree.commentCaptures lines
      let inRange := fun (n : ℕ) => 1 ≤ n && n - 1 < lines.length
      let nonBlank := fun (n : ℕ) => !(jsTrim (lines.getD (n - 1) "") == "")
      let diffNloc := addedLines.countP
        (fun n => inRange n && nonBlank n && !(colines.contains n))
      let linesWithComments := addedLines.countP
        (fun n => inRange n && nonBlank n && colines.contains n)
      let diffComplexity := (addedLines.map (fun n =>
        if inRange n && nonBlank n && !(colines.contains n) then
          calculateNestingDepthForLine n tree.branchCaptures
        else 0)).sum
      let commentDensity :=
        if 0 < diffNloc then round2 (((linesWithComments : ℚ) / diffNloc) * 100)
        else 0
      let normalizedComplexity :=
        if 0 < diffNloc then ((diffComplexity : ℚ) / diffNloc) * 100 else 0
      let estimatedHours :=
        calculateEstimation tanh c diffNloc normalizedComplexity commentDensity
      { file := file.path, status := status, addedLines := addedLines.length,
        removedLines := removedLines.length, diffNloc := diffNloc,
        diffComplexity := diffComplexity, commentDensity := commentDensity,
        estimatedHours := estimatedHours }

/-! ### Full-file cognitive complexity
(`BaseAdapter.calculateCognitiveComplexity`) -/

/-- A branch capture node's byte span (`startIndex` / `endIndex`). -/
structure IdxSpan where
  startIndex : ℕ
  endIndex : ℕ
deriving DecidableEq, Repr

/-- The `isInside` test of `calculateCognitiveComplexity`
(`src/languages/baseAdapter.ts:273-280`): same-or-wider on both ends with at
least one strict inequality. -/
def isInside (other branch : IdxSpan) : Bool :=
  other.startIndex ≤ branch.startIndex && branch.endIndex ≤ other.endIndex &&
    (other.startIndex < branch.startIndex || branch.endIndex < other.endIndex)

/-- `BaseAdapter.calculateCognitiveComplexity`
(`src/languages/baseAdapter.ts:263-290`): every captured branch node
contributes `1 +` the number of other captured branch nodes it lies strictly
inside. The `branch === other` object-identity skip is rendered as a
position skip (`q.1 != p.1`), which is observationally identical because
`isInside` is irreflexive on equal spans. -/
def calculateCognitiveComplexity (branches : List IdxSpan) : ℕ :=
  branches.enum.foldl (fun acc p =>
    acc + (1 + branches.enum.countP
      (fun q => q.1 != p.1 && isInside q.2 p.2))) 0

/-- Proper span containment, as the specification words it. -/
def properlyContains (other branch : IdxSpan) : Prop :=
  (other.startIndex ≤ branch.startIndex ∧ branch.endIndex ≤ other.endIndex) ∧
    (other.startIndex < branch.startIndex ∨ branch.endIndex < other.endIndex)

instance (other branch : IdxSpan) : Decidable (properlyContains other branch) := by
  unfold properlyContains
  infer_instance

/-! ### Call graphs: shared data model (`src/engine/types.ts`) -/

/-- `GraphNode`, restricted to the fields the call-resolution logic reads.
`contract` is the container name (`undefined` for free functions),
`containerKind` distinguishes `contract`/`interface`/`library`. -/
structure GraphNode where
  id : String
  label : String
  contract : Option String := none
  containerKind : Option String := none
  visibility : String := "internal"
deriving DecidableEq, Repr

/-- `GraphEdge`; `fromId`/`toId` model the `from`/`to` fields. -/
structure GraphEdge where
  fromId : String
  toId : String
  kind : String
deriving DecidableEq, Repr

/-- `CallGraph`. -/
structure CallGraph where
  nodes : List GraphNode
  edges : List GraphEdge
deriving DecidableEq, Repr

/-- Nodes with a given `label` in symbol-table insertion order: the
`symbolsByLabel` index of the adapters. -/
def symbolsWithLabel (symbols : List GraphNode) (label : String) :
    List GraphNode :=
  symbols.filter (fun n => n.label == label)

/-- Nodes of a given container in insertion order: the `symbolsByContract` /
`symbolsByReceiver` / `symbolsByContainer` index of the adapters. -/
def symbolsInContainer (symbols : List GraphNode) (container : String) :
    List GraphNode :=
  symbols.filter (fun n => n.contract == some container)

/-- `findInContract`: first node of `container` carrying `label`. -/
def findInContainer (symbols : List GraphNode) (container label : String) :
    Option GraphNode :=
  symbols.find? (fun n => n.contract == some container && n.label == label)

/-- `Array.from(symbolTable.values())` where the table is a JS `Map` keyed by
node id and filled by `Map.set` in insertion order: a later node with an
existing id replaces the value kept at the first insertion position. -/
def symbolTableValues (symbols : List GraphNode) : List GraphNode :=
  symbols.foldl (fun acc n =>
    if acc.any (fun m => m.id == n.id) then
      acc.map (fun m => if m.id == n.id then n else m)
    else acc ++ [n]) []

/-! ### Solidity call-graph builder (`src/languages/solidityAdapter.ts`) -/

/-- The `CallType` enum of the Solidity adapter. -/
inductive CallType
  | simpleCall
  | memberCall
  | thisCall
  | superCall
deriving DecidableEq, Repr

/-- One query match of a call-expression query: the `FUNC` capture text and
the `RECV` capture text when the pattern has one. -/
structure CallMatch where
  funcName : String
  memberName : Option String := none
deriving DecidableEq, Repr

/-- The Solidity adapter's per-run scratch state after Phase 1
(`buildSymbolTable`): the indexed symbols in insertion order, the
`inheritanceGraph` (child contract → parents in declaration order) and the
`usingForMap` (contract → using-for libraries). -/
structure SolState where
  symbols : List GraphNode
  inheritanceGraph : List (String × List String)
  usingForMap : List (String × List String)
deriving DecidableEq, Repr

/-- `BUILTIN_FUNCTIONS` of the Solidity adapter. -/
def solidityBuiltins : List String := ["require", "assert", "revert", "emit"]

/-- `SolidityAdapter.shouldSkipCall`. -/
def shouldSkipCall (funcName : String) (memberName : Option String)
    (callType : CallType) : Bool :=
  if solidityBuiltins.contains funcName then true
  else if callType == .memberCall && memberName == some "super" then true
  else if callType == .simpleCall && jsContainsChar funcName '.' then true
  else false

/-- `SolidityAdapter.determineEdgeKind`. -/
def determineEdgeKind (callType : CallType) (callee : GraphNode) : String :=
  if callType == .thisCall then "external"
  else if callType == .superCall then "internal"
  else if callType == .simpleCall then "internal"
  else if callee.containerKind == some "library" then
    (if callee.visibility == "internal" then "internal" else "external")
  else "external"

/-- `SolidityAdapter.resolveSuperCall` (`src/languages/solidityAdapter.ts:348`):
search the *direct* parents of the caller's contract, in declaration order. -/
def resolveSuperCall (st : SolState) (name : String) (caller : GraphNode) :
    Option GraphNode :=
  match caller.contract with
  | none => none
  | some c =>
    match st.inheritanceGraph.lookup c with
    | none => none
    | some parents =>
      if parents.isEmpty then none
      else parents.findSome? (fun p => findInContainer st.symbols p name)

/-- `SolidityAdapter.resolveInheritedCall`
(`src/languages/solidityAdapter.ts:393`): recursive ancestor search guarded by
the mutable `visited` set, which is threaded through the recursion as an
explicit list. `fuel` makes the recursion structural; each productive step
consumes a distinct unvisited key of `inheritanceGraph`, so any fuel above the
number of inheritance entries is never exhausted. -/
def resolveInheritedCall (st : SolState) (name : String) :
    ℕ → String → List String → Option GraphNode × List String
  | 0, _, visited => (none, visited)
  | fuel + 1, contract, visited =>
    if visited.contains contract then (none, visited)
    else
      let visited1 := contract :: visited
      match st.inheritanceGraph.lookup contract with
      | none => (none, visited1)
      | some parents =>
        parents.foldl (fun acc p =>
          match acc with
          | (some f, v) => (some f, v)
          | (none, v) =>
            match findInContainer st.symbols p name with
            | some f => (some f, v)
            | none => resolveInheritedCall st name fuel p v) (none, visited1)

/-- `resolveInheritedCall` as called from resolution (fresh `visited`,
sufficient fuel). -/
def resolveInheritedCallTop (st : SolState) (name contract : String) :
    Option GraphNode :=
  (resolveInheritedCall st name (st.inheritanceGraph.length + 1) contract []).1

/-- `SolidityAdapter.resolveLocalOrInheritedCall`. -/
def resolveLocalOrInheritedCall (st : SolState) (name : String)
    (caller : GraphNode) : Option GraphNode :=
  let fromContract :=
    match caller.contract with
    | some c =>
      match findInContainer st.symbols c name with
      | some localFn => some localFn
      | none => resolveInheritedCallTop st name c
    | none => none
  match fromContract with
  | some n => some n
  | none =>
    let freeFuncs := symbolsWithLabel st.symbols name
    match freeFuncs.find? (fun n => n.contract == none) with
    | some free => some free
    | none => freeFuncs.head?

/-- `SolidityAdapter.resolveMemberCall`. -/
def resolveMemberCall (st : SolState) (name memberName : String)
    (caller : GraphNode) : Option GraphNode :=
  match findInContainer st.symbols memberName name with
  | some f => some f
  | none =>
    match caller.contract with
    | none => none
    | some c =>
      match st.usingForMap.lookup c with
      | none => none
      | some libs => libs.findSome? (fun lib => findInContainer st.symbols lib name)

/-- `SolidityAdapter.resolveCallNode`. -/
def resolveCallNode (st : SolState) (callType : CallType) (name : String)
    (memberName : Option String) (caller : GraphNode) : Option GraphNode :=
  match callType with
  | .superCall => resolveSuperCall st name caller
  | .memberCall => resolveMemberCall st name (memberName.getD "") caller
  | .thisCall => resolveLocalOrInheritedCall st name caller
  | .simpleCall => resolveLocalOrInheritedCall st name caller

/-- `SolidityAdapter.processCallType` (`src/languages/solidityAdapter.ts:243`):
for each query match, skip or resolve, then push an edge — with no
deduplication. -/
def processCallType (st : SolState) (caller : GraphNode)
    (edges : List GraphEdge) (callType : CallType) (extractMember : Bool)
    (callMatches : List CallMatch) : List GraphEdge :=
  callMatches.foldl (fun es m =>
    let memberName := if extractMember then m.memberName else none
    if shouldSkipCall m.funcName memberName callType then es
    else
      match resolveCallNode st callType m.funcName memberName caller with
      | some callee =>
        es ++ [⟨caller.id, callee.id, determineEdgeKind callType callee⟩]
      | none => es) edges

/-- `SolidityAdapter.processAssemblyCalls`. -/
def processAssemblyCalls (st : SolState) (caller : GraphNode)
    (edges : List GraphEdge) (asmCalls : List String) : List GraphEdge :=
  asmCalls.foldl (fun es callName =>
    match resolveCallNode st .simpleCall callName none caller with
    | some callee => es ++ [⟨caller.id, callee.id, "internal"⟩]
    | none => es) edges

/-- One function node of Phase 2 together with the call-expression query
matches of its body, per query (what tree-sitter returns for
`SUPER_CALL`/`MEMBER_CALL`/`THIS_CALL`/`SIMPLE_CALL`/`ASSEMBLY_CALL`). -/
structure SolFunctionCalls where
  symbol : GraphNode
  superMatches : List CallMatch := []
  memberMatches : List CallMatch := []
  thisMatches : List CallMatch := []
  simpleMatches : List CallMatch := []
  assemblyCalls : List String := []
deriving DecidableEq, Repr

/-- `SolidityAdapter.identifyCalls`: Rules 1-5 per function, in source order. -/
def solIdentifyCalls (st : SolState) (fns : List SolFunctionCalls) :
    List GraphEdge :=
  fns.foldl (fun es fn =>
    let es := processCallType st fn.symbol es .superCall false fn.superMatches
    let es := processCallType st fn.symbol es .memberCall true fn.memberMatches
    let es := processCallType st fn.symbol es .thisCall false fn.thisMatches
    let es := processCallType st fn.symbol es .simpleCall false fn.simpleMatches
    processAssemblyCalls st fn.symbol es fn.assemblyCalls) []

/-- `SolidityAdapter.generateCallGraph`, Phase 2 onward (Phase 1's result is
the `SolState`). -/
def solGenerateCallGraph (st : SolState) (fns : List SolFunctionCalls) :
    CallGraph :=
  { nodes := symbolTableValues st.symbols, edges := solIdentifyCalls st fns }

/-! ### Go call-graph builder (`src/languages/goAdapter.ts`) -/

/-- `BUILTIN_FUNCTIONS` of the Go adapter. -/
def goBuiltins : List String :=
  ["make", "new", "len", "cap", "append", "copy", "close", "delete",
   "complex", "real", "imag", "panic", "recover", "print", "println",
   "min", "max", "clear"]

/-- `GoAdapter.addEdge` (`src/languages/goAdapter.ts:265`): push only if no
edge with the same `(from, to)` pair exists. -/
def addEdge (edges : List GraphEdge) (fromId toId : String) : List GraphEdge :=
  if edges.any (fun e => e.fromId == fromId && e.toId == toId) then edges
  else edges ++ [⟨fromId, toId, "internal"⟩]

/-- `GoAdapter.resolveSimpleCall`. -/
def goResolveSimpleCall (symbols : List GraphNode) (callName : String) :
    Option GraphNode :=
  let packageFuncs := symbolsWithLabel symbols callName
  match packageFuncs.find? (fun n => n.contract == none) with
  | some f => some f
  | none => packageFuncs.head?

/-- `GoAdapter.resolveSelectorCall`. -/
def goResolveSelectorCall (symbols : List GraphNode) (methodName : String)
    (caller : GraphNode) : Option GraphNode :=
  let fromReceiver :=
    match caller.contract with
    | some c => (symbolsInContainer symbols c).find? (fun n => n.label == methodName)
    | none => none
  match fromReceiver with
  | some m => some m
  | none => (symbolsWithLabel symbols methodName).head?

/-- One Go function/method with the `FUNC` capture texts of its body's simple
and selector call queries. -/
structure GoFunctionCalls where
  symbol : GraphNode
  simpleCalls : List String := []
  selectorCalls : List String := []
deriving DecidableEq, Repr

/-- `GoAdapter.processCallsInFunction` (`src/languages/goAdapter.ts:231`):
builtin-filtered simple calls, then selector calls; both skip self-edges and
deduplicate through `addEdge`. -/
def goProcessCallsInFunction (symbols : List GraphNode) (caller : GraphNode)
    (edges : List GraphEdge) (fn : GoFunctionCalls) : List GraphEdge :=
  let edges := fn.simpleCalls.foldl (fun es callName =>
    if goBuiltins.contains callName then es
    else
      match goResolveSimpleCall symbols callName with
      | some callee =>
        if callee.id != caller.id then addEdge es caller.id callee.id else es
      | none => es) edges
  fn.selectorCalls.foldl (fun es methodName =>
    match goResolveSelectorCall symbols methodName caller with
    | some callee =>
      if callee.id != caller.id then addEdge es caller.id callee.id else es
    | none => es) edges

/-- `GoAdapter.identifyCalls`. -/
def goIdentifyCalls (symbols : List GraphNode) (fns : List GoFunctionCalls) :
    List GraphEdge :=
  fns.foldl (fun es fn => goProcessCallsInFunction symbols fn.symbol es fn) []

/-- `GoAdapter.generateCallGraph`, Phase 2 onward. -/
def goGenerateCallGraph (symbols : List GraphNode)
    (fns : List GoFunctionCalls) : CallGraph :=
  { nodes := symbolTableValues symbols, edges := goIdentifyCalls symbols fns }

/-! ### Rust call-graph builder (`RustAdapter`) -/

/-- The Rust adapter's three call shapes. -/
inductive RustCallType
  | simple
  | method
  | scoped
deriving DecidableEq, Repr

/-- One `FUNC` capture of a Rust call query: its text and whether
`isMacroCall` holds for it (a `macro_invocation` ancestor is met before any
`call_expression` ancestor). -/
structure RustCallCapture where
  text : String
  isMacro : Bool := false
deriving DecidableEq, Repr

/-- `RustAdapter.resolveCall`. -/
def rustResolveCall (symbols : List GraphNode) (callText : String)
    (callType : RustCallType) (caller : GraphNode) : Option GraphNode :=
  match callType with
  | .scoped =>
    let parts := jsSplitDoubleColon callText
    let funcName := parts.getLastD ""
    let containerName := jsJoinDoubleColon parts.dropLast
    match (symbolsInContainer symbols containerName).find?
        (fun n => n.label == funcName) with
    | some m => some m
    | none => (symbolsWithLabel symbols funcName).head?
  | .method =>
    let fromContainer :=
      match caller.contract with
      | some c =>
        (symbolsInContainer symbols c).find?
          (fun (n : GraphNode) => n.label == callText)
      | none => none
    match fromContainer with
    | some m => some m
    | none => (symbolsWithLabel symbols callText).head?
  | .simple =>
    let fromContainer :=
      match caller.contract with
      | some c =>
        (symbolsInContainer symbols c).find?
          (fun (n : GraphNode) => n.label == callText)
      | none => none
    match fromContainer with
    | some m => some m
    | none =>
      match (symbolsWithLabel symbols callText).find? (fun n => n.contract == none) with
      | some free => some free
      | none => (symbolsWithLabel symbols callText).head?

/-- `RustAdapter.processCallQuery` (part_010:302-332): skip macro invocations,
resolve, skip self-edges, and push with inline `(from, to)` deduplication. -/
def rustProcessCallQuery (symbols : List GraphNode) (caller : GraphNode)
    (edges : List GraphEdge) (callType : RustCallType)
    (captures : List RustCallCapture) : List GraphEdge :=
  captures.foldl (fun es cap =>
    if cap.isMacro then es
    else
      match rustResolveCall symbols cap.text callType caller with
      | some callee =>
        if callee.id != caller.id then
          if es.any (fun e => e.fromId == caller.id && e.toId == callee.id) then es
          else es ++ [⟨caller.id, callee.id, "internal"⟩]
        else es
      | none => es) edges

/-- One Rust function with the captures of the five call queries of its
body. -/
structure RustFunctionCalls where
  symbol : GraphNode
  simpleCalls : List RustCallCapture := []
  methodCalls : List RustCallCapture := []
  scopedCalls : List RustCallCapture := []
  genericCalls : List RustCallCapture := []
  genericScopedCalls : List RustCallCapture := []
deriving DecidableEq, Repr

/-- `RustAdapter.identifyCalls`: the five query passes per function, in source
order (generic calls resolve as simple, generic scoped as scoped). -/
def rustIdentifyCalls (symbols : List GraphNode)
    (fns : List RustFunctionCalls) : List GraphEdge :=
  fns.foldl (fun es fn =>
    let es := rustProcessCallQuery symbols fn.symbol es .simple fn.simpleCalls
    let es := rustProcessCallQuery symbols fn.symbol es .method fn.methodCalls
    let es := rustProcessCallQuery symbols fn.symbol es .scoped fn.scopedCalls
    let es := rustProcessCallQuery symbols fn.symbol es .simple fn.genericCalls
    rustProcessCallQuery symbols fn.symbol es .scoped fn.genericScopedCalls) []

/-- `RustAdapter.generateCallGraph`, Phase 2 onward. -/
def rustGenerateCallGraph (symbols : List GraphNode)
    (fns : List RustFunctionCalls) : CallGraph :=
  { nodes := symbolTableValues symbols, edges := rustIdentifyCalls symbols fns }

/-! ### Execution path generator (`src/mcp/tools/executionPaths.ts`) -/

/-- `MAX_DEPTH`. -/
def MAX_DEPTH : ℕ := 10

/-- Stable insertion of an edge into a list sorted by target id: models the
stable JS `Array.sort` used on `outgoingEdges`. -/
def insertEdgeByTarget (e : GraphEdge) : List GraphEdge → List GraphEdge
  | [] => [e]
  | f :: fs =>
    if jsStringLe f.toId e.toId then f :: insertEdgeByTarget e fs
    else e :: f :: fs

/-- `outgoingEdges.sort((a, b) => a.to.localeCompare(b.to))` as a stable
sort. -/
def sortEdgesByTarget (edges : List GraphEdge) : List GraphEdge :=
  edges.foldr insertEdgeByTarget []

/-- `resolvePaths` (`src/mcp/tools/executionPaths.ts:76`), recursing on the
remaining depth budget `fuel = MAX_DEPTH - depth`: the source's guard
`depth >= MAX_DEPTH` is exactly `fuel = 0`, and the recursive call at
`depth + 1` is exactly the call at `fuel - 1`. Depth-first path enumeration
with the recursion stack as cycle guard. -/
def resolvePathsFuel (graph : CallGraph) :
    ℕ → String → List String → List (List String)
  | fuel, currentId, stack =>
    if stack.contains currentId then [[currentId ++ " (Recursive)"]]
    else
      match fuel with
      | 0 => [[currentId ++ " (Max Depth)"]]
      | fuel' + 1 =>
        if (graph.edges.filter (fun e => e.fromId == currentId)).isEmpty then
          [[currentId]]
        else
          (sortEdgesByTarget
            (graph.edges.filter (fun e => e.fromId == currentId))).foldl
            (fun paths e =>
              paths ++ (resolvePathsFuel graph fuel' e.toId
                (currentId :: stack)).map (fun tail => currentId :: tail)) []

/-- `resolvePaths` with the source's `(currentId, graph, depth, stack)`
interface. -/
def resolvePaths (graph : CallGraph) (currentId : String) (depth : ℕ)
    (stack : List String) : List (List String) :=
  resolvePathsFuel graph (MAX_DEPTH - depth) currentId stack

/-- The two-node mutually recursive call graph `A→B→A`. -/
def twoNodeCycleGraph : CallGraph :=
  { nodes :=
      [⟨"A", "A", none, none, "public"⟩, ⟨"B", "B", none, none, "internal"⟩],
    edges := [⟨"A", "B", "internal"⟩, ⟨"B", "A", "internal"⟩] }

/-! ### Signature ranges (`BaseAdapter.extractSignaturesWithRanges`) -/

/-- The body node of a function capture (`childForFieldName('body')` or the
first body/block-typed child), restricted to what the extractor reads. -/
structure SigBody where
  startIndex : ℕ
  startRow : ℕ
deriving DecidableEq, Repr

/-- A function capture node as read by the extractor. -/
structure SigFnNode where
  startIndex : ℕ
  endIndex : ℕ
  startRow : ℕ
  endRow : ℕ
  text : String
  body : Option SigBody := none
deriving DecidableEq, Repr

/-- One capture of the function query. -/
structure SigCapture where
  name : String
  node : SigFnNode
deriving DecidableEq, Repr

/-- A parsed file as read by the extractor: its raw content and the function
query's captures. -/
structure ParsedFile where
  content : String
  captures : List SigCapture
deriving DecidableEq, Repr

/-- JS `content.substring(a, b)`. -/
def jsSubstring (s : String) (a b : ℕ) : String :=
  String.mk ((s.data.drop (min a b)).take (max a b - min a b))

/-- Collapse every whitespace run to a single space (`/\s+/g → ' '`). -/
def collapseWhitespace : List Char → List Char
  | [] => []
  | c :: cs =>
    if c.isWhitespace then
      match collapseWhitespace cs with
      | ' ' :: rest => ' ' :: rest
      | rest => ' ' :: rest
    else c :: collapseWhitespace cs

/-- `/\(\s+/g → '('` on a whitespace-collapsed string. -/
def dropSpaceAfterOpen : List Char → List Char
  | '(' :: ' ' :: rest => '(' :: dropSpaceAfterOpen rest
  | c :: rest => c :: dropSpaceAfterOpen rest
  | [] => []

/-- `/\s+\)/g → ')'` on a whitespace-collapsed string. -/
def dropSpaceBeforeClose : List Char → List Char
  | ' ' :: ')' :: rest => ')' :: dropSpaceBeforeClose rest
  | c :: rest => c :: dropSpaceBeforeClose rest
  | [] => []

/-- `/\s*,\s*/g → ', '` on a whitespace-collapsed string. -/
def normalizeCommas : List Char → List Char
  | ' ' :: ',' :: ' ' :: rest => ',' :: ' ' :: normalizeCommas rest
  | ' ' :: ',' :: rest => ',' :: ' ' :: normalizeCommas rest
  | ',' :: ' ' :: rest => ',' :: ' ' :: normalizeCommas rest
  | ',' :: rest => ',' :: ' ' :: normalizeCommas rest
  | c :: rest => c :: normalizeCommas rest
  | [] => []

/-- `BaseAdapter.cleanSignature`. -/
def cleanSignature (raw : String) : String :=
  jsTrim (String.mk (normalizeCommas (dropSpaceBeforeClose
    (dropSpaceAfterOpen (collapseWhitespace raw.data)))))

/-- The 120/117 truncation of `extractSignaturesWithRanges`. -/
def truncateSignature (s : String) : String :=
  if 120 < s.data.length then String.mk (s.data.take 117) ++ "..." else s

/-- A `SignatureRange` (`{ signature, startLine, endLine }`, 1-indexed). -/
structure SignatureRange where
  signature : String
  startLine : ℕ
  endLine : ℕ
deriving DecidableEq, Repr

/-- `BaseAdapter.extractSignaturesWithRanges`
(`src/languages/baseAdapter.ts:595`): for every `function` capture, the
signature text is clipped at the body start (when a body exists), while the
recorded range is `startLine = startPosition.row + 1` and
`endLine = endPosition.row + 1` of the *whole function node*. -/
def extractSignaturesWithRanges (file : ParsedFile) : List SignatureRange :=
  file.captures.foldl (fun results cap =>
    if cap.name == "function" then
      let node := cap.node
      let rawSignature :=
        match node.body with
        | some b => jsSubstring file.content node.startIndex b.startIndex
        | none => node.text
      let signature := truncateSignature (cleanSignature rawSignature)
      results ++ [⟨signature, node.startRow + 1, node.endRow + 1⟩]
    else results) []

/-! ### Invariant predicates and concrete scenarios -/

/-- No two edges share the same `(from, to)` pair. -/
def edgesDedupedByPair (es : List GraphEdge) : Prop :=
  es.Pairwise (fun a b => ¬ (a.fromId = b.fromId ∧ a.toId = b.toId))

/-- No edge is a self-loop. -/
def selfEdgeFree (es : List GraphEdge) : Prop :=
  ∀ e ∈ es, e.fromId ≠ e.toId

/-- Combined edge-list invariant maintained by the Go and Rust builders. -/
def edgeInvariant (es : List GraphEdge) : Prop :=
  edgesDedupedByPair es ∧ selfEdgeFree es

/-- Scenario: `contract C { function a() public { b(); b(); } function b()
public {} }` — node of `a`. -/
def dupDemoA : GraphNode := ⟨"C.a()", "a", some "C", some "contract", "public"⟩

/-- Node of `b` in the duplicate-call scenario. -/
def dupDemoB : GraphNode := ⟨"C.b()", "b", some "C", some "contract", "public"⟩

/-- Symbol table of the duplicate-call scenario. -/
def dupDemoState : SolState := ⟨[dupDemoA, dupDemoB], [], []⟩

/-- Phase-2 input of the duplicate-call scenario: `a`'s body yields two
`SIMPLE_CALL` matches for `b`. -/
def dupDemoFns : List SolFunctionCalls :=
  [{ symbol := dupDemoA, simpleMatches := [⟨"b", none⟩, ⟨"b", none⟩] },
   { symbol := dupDemoB }]

/-- Scenario: `contract A { function f() public {} }`,
`contract B is A {}`, `contract C is B { function g() public { super.f(); } }`
— node of `A.f`. -/
def superDemoF : GraphNode := ⟨"A.f()", "f", some "A", some "contract", "public"⟩

/-- Node of `C.g` in the grandparent-super scenario. -/
def superDemoG : GraphNode := ⟨"C.g()", "g", some "C", some "contract", "public"⟩

/-- Symbol table and inheritance of the grandparent-super scenario:
`C → [B]`, `B → [A]`, `f` defined only in `A`. -/
def superDemoState : SolState :=
  ⟨[superDemoF, superDemoG], [("C", ["B"]), ("B", ["A"])], []⟩

/-- Phase-2 input of the grandparent-super scenario: `super.f()` matches both
the `SUPER_CALL` query and the `MEMBER_CALL` query (with receiver `super`). -/
def superDemoFns : List SolFunctionCalls :=
  [{ symbol := superDemoG, superMatches := [⟨"f", some "super"⟩],
     memberMatches := [⟨"f", some "super"⟩] },
   { symbol := superDemoF }]

/-- Scenario: direct-parent super call (the repository's own test): node of
`Parent.foo`. -/
def superParentFoo : GraphNode :=
  ⟨"Parent.foo()", "foo", some "Parent", some "contract", "public"⟩

/-- Node of `Child.foo` in the direct-parent scenario. -/
def superChildFoo : GraphNode :=
  ⟨"Child.foo()", "foo", some "Child", some "contract", "public"⟩

/-- Symbol table of the direct-parent scenario, `Child → [Parent]`. -/
def superDirectState : SolState :=
  ⟨[superParentFoo, superChildFoo], [("Child", ["Parent"])], []⟩

/-- Scenario for the signature-range extractor: a three-line function whose
body block opens on line 1 (0-indexed row 0) and closes on line 3. -/
def sigDemoFile : ParsedFile :=
  { content := "function f() public {
  x();
}",
    captures := [⟨"function",
      ⟨0, 30, 0, 2, "function f() public {
  x();
}", some ⟨20, 0⟩⟩⟩] }

end AuditorAddon

namespace AuditorAddon

/-! ## Theorems -/

/-- Midpoint neutrality for arbitrary constants with a nonnegative penalty cap:
with `normalizedComplexity` at the midpoint and zero comment density, both
adjustments vanish and the clamped factor is exactly 1. -/
theorem calculateEstimation_neutral (tanh : ℚ → ℚ) (ht : tanh 0 = 0)
    (c : EstimationConstants) (hpc : 0 ≤ c.complexityPenaltyCap) :
    calculateEstimation tanh c 100 c.complexityMidpoint 0
      = round2 (8 * (100 / c.baseRateNlocPerDay) * 1) := by
  unfold calculateEstimation
  simp only [sub_self, zero_div, ht, max_self, zero_mul, mul_zero, ite_self,
    add_zero, sub_zero]
  rw [min_eq_right (by linarith : (1 : ℚ) ≤ 1 + c.complexityPenaltyCap)]
  rw [show (0.5 : ℚ) ⊔ 1 = 1 by norm_num]
  congr 1
  ring

/-- C5: for every language profile, with `nloc = 100`, `normalizedComplexity`
at the profile's `complexityMidpoint` and `commentDensity = 0`, the estimation
formula returns exactly `round2(8 * (100 / baseRateNlocPerDay) * 1.0)`: the
adjustment factor is neutral at the midpoint with zero comment benefit. -/
theorem c5_estimation_midpoint_neutral (tanh : ℚ → ℚ) (ht : tanh 0 = 0)
    (c : EstimationConstants) (hc : c ∈ allProfiles) :
    calculateEstimation tanh c 100 c.complexityMidpoint 0
      = round2 (8 * (100 / c.baseRateNlocPerDay) * 1) := by
  apply calculateEstimation_neutral tanh ht
  fin_cases hc <;>
    norm_num [solidityConstants, goConstants, compactConstants, cairoConstants,
      moveConstants, noirConstants, cppConstants, javaConstants, tolkConstants,
      rustConstants, masmConstants]

/-- Witness for C5 at the Solidity profile with `tanh` instantiated by a
concrete function fixing 0. -/
theorem c5_estimation_midpoint_neutral_witness :
    calculateEstimation (fun x => x) solidityConstants 100
      solidityConstants.complexityMidpoint 0
      = round2 (8 * (100 / solidityConstants.baseRateNlocPerDay) * 1) :=
  c5_estimation_midpoint_neutral (fun x => x) rfl solidityConstants
    (by simp [allProfiles])

/-- C6: with status `deleted`, `calculateDiffMetrics` returns all-zero metrics
except `removedLines = |removed|`, for every file, every added/removed list and
every parse outcome — the result does not depend on the parse at all, so no
parse is attempted. -/
theorem c6_deleted_short_circuit (tanh : ℚ → ℚ) (c : EstimationConstants)
    (file : FileContent) (parse : Option ParsedTree)
    (addedLines removedLines : List ℕ) :
    calculateDiffMetrics tanh c file parse addedLines removedLines .deleted
      = { file := file.path, status := .deleted, addedLines := 0,
          removedLines := removedLines.length, diffNloc := 0,
          diffComplexity := 0, commentDensity := 0, estimatedHours := 0 } := rfl

/-- C7: for a non-deleted file whose text fails to parse, `calculateDiffMetrics`
returns (totally, without throwing) `diffNloc = |added|`, zero complexity and
zero comment density. -/
theorem c7_parse_failure_fallback (tanh : ℚ → ℚ) (c : EstimationConstants)
    (file : FileContent) (addedLines removedLines : List ℕ) :
    (calculateDiffMetrics tanh c file none addedLines removedLines .added
      = { file := file.path, status := .added, addedLines := addedLines.length,
          removedLines := removedLines.length, diffNloc := addedLines.length,
          diffComplexity := 0, commentDensity := 0, estimatedHours := 0 })
    ∧ (calculateDiffMetrics tanh c file none addedLines removedLines .modified
      = { file := file.path, status := .modified,
          addedLines := addedLines.length, removedLines := removedLines.length,
          diffNloc := addedLines.length, diffComplexity := 0,
          commentDensity := 0, estimatedHours := 0 }) :=
  ⟨rfl, rfl⟩

/-- C9: the comment-only guard `lineNum < lines.length` is strict on the
1-indexed line number, so every recorded comment-only line number is strictly
below the line count — the file's last line (number = line count) is never
classified comment-only. Concretely, an added final line `// end` of a
two-line file counts toward `diffNloc` (= 1) and not toward the comment
density (= 0), although it starts with a recognized comment marker and is
covered by a comment capture. -/
theorem c9_last_line_not_comment_only :
    (∀ (caps : List RowSpan) (lines : List String),
      (commentOnlyLines caps lines).all (fun m => decide (m < lines.length))
        = true)
    ∧ (calculateDiffMetrics (fun x => x) solidityConstants
        ⟨"a.sol", "a();\n// end"⟩ (some ⟨[⟨1, 1⟩], []⟩) [2] []
          .modified).diffNloc = 1
    ∧ (calculateDiffMetrics (fun x => x) solidityConstants
        ⟨"a.sol", "a();\n// end"⟩ (some ⟨[⟨1, 1⟩], []⟩) [2] []
          .modified).commentDensity = 0 := by
  refine ⟨?_, rfl, ?_⟩
  case refine_2 =>
    show (if 0 < (1 : ℕ) then
        round2 ((((0 : ℕ) : ℚ) / ((1 : ℕ) : ℚ)) * 100) else 0) = 0
    norm_num [round2]
  intro caps lines
  rw [List.all_eq_true]
  intro m hm
  simp only [commentOnlyLines, List.mem_flatMap, List.mem_map,
    List.mem_filter, Bool.and_eq_true, decide_eq_true_eq] at hm
  obtain ⟨cap, -, i, ⟨-, hlt, -⟩, rfl⟩ := hm
  simpa using hlt

/-- Folding an accumulator-sum loop equals the sum of the mapped list. -/
theorem foldl_add_sum {α : Type} (f : α → ℕ) (l : List α) (n : ℕ) :
    l.foldl (fun acc x => acc + f x) n = n + (l.map f).sum := by
  induction l generalizing n with
  | nil => simp
  | cons a l ih => simp [ih]; omega

/-- The Bool test of the source coincides with proper containment plus the
position skip. -/
theorem isInside_eq_properlyContains (p q : ℕ × IdxSpan) :
    (q.1 != p.1 && isInside q.2 p.2)
      = decide (q.1 ≠ p.1 ∧ properlyContains q.2 p.2) := by
  simp only [isInside, properlyContains]
  by_cases h1 : q.1 = p.1 <;>
    by_cases h2 : q.2.startIndex ≤ p.2.startIndex <;>
      by_cases h3 : p.2.endIndex ≤ q.2.endIndex <;>
        by_cases h4 : q.2.startIndex < p.2.startIndex <;>
          by_cases h5 : p.2.endIndex < q.2.endIndex <;>
            simp [h1, h2, h3, h4, h5]

/-- C8: the file's cognitive complexity is the sum, over all captured branch
nodes, of `1 +` the number of other captured branch nodes properly containing
that node; in particular a branch properly contained in exactly one other
branch has nesting level 1 and contributes exactly 2, as in the concrete
two-span instance whose total is 3 (outer 1 + inner 2). -/
theorem c8_cognitive_complexity_containment :
    (∀ branches : List IdxSpan,
      calculateCognitiveComplexity branches
        = (branches.enum.map (fun p => 1 + branches.enum.countP
            (fun q => decide (q.1 ≠ p.1 ∧ properlyContains q.2 p.2)))).sum)
    ∧ calculateCognitiveComplexity [⟨0, 100⟩, ⟨10, 20⟩] = 3 := by
  constructor
  · intro bs
    unfold calculateCognitiveComplexity
    rw [foldl_add_sum]
    simp only [isInside_eq_properlyContains, Nat.zero_add]
  · rfl

/-- Preservation of a predicate along a fold. -/
theorem foldl_preserve {α β : Type} (P : β → Prop) (f : β → α → β)
    (hf : ∀ b a, P b → P (f b a)) :
    ∀ (l : List α) (b : β), P b → P (l.foldl f b) := by
  intro l
  induction l with
  | nil => intro b hb; exact hb
  | cons a l ih => intro b hb; exact ih _ (hf b a hb)

/-- Folding an accumulator-append loop equals appending the flat-mapped
list. -/
theorem foldl_append_flatMap {α β : Type} (f : α → List β) :
    ∀ (l : List α) (init : List β),
      l.foldl (fun acc x => acc ++ f x) init = init ++ l.flatMap f := by
  intro l
  induction l with
  | nil => intro init; simp
  | cons a l ih => intro init; simp [ih]

/-- The empty edge list satisfies the combined invariant. -/
theorem edgeInvariant_nil : edgeInvariant [] :=
  ⟨List.Pairwise.nil, fun e he => absurd he (List.not_mem_nil e)⟩

/-- A guarded dedup-push (the body of `addEdge` and of the Rust inline push)
preserves the combined invariant when the new edge is not a self-loop. -/
theorem edgeInvariant_dedupPush (es : List GraphEdge) (f t k : String)
    (hft : f ≠ t) (h : edgeInvariant es) :
    edgeInvariant (if es.any (fun e => e.fromId == f && e.toId == t) then es
      else es ++ [⟨f, t, k⟩]) := by
  split
  · exact h
  · rename_i hany
    obtain ⟨hd, hs⟩ := h
    constructor
    · rw [edgesDedupedByPair, List.pairwise_append]
      refine ⟨hd, List.pairwise_singleton _ _, ?_⟩
      intro a ha b hb
      have hb' : b = ⟨f, t, k⟩ := by simpa using hb
      subst hb'
      intro hcontra
      apply hany
      rw [List.any_eq_true]
      exact ⟨a, ha, by simp [hcontra.1, hcontra.2]⟩
    · intro e he
      rcases List.mem_append.mp he with h1 | h2
      · exact hs e h1
      · have he' : e = ⟨f, t, k⟩ := by simpa using h2
        subst he'
        simpa using hft

/-- `addEdge` preserves the combined invariant for non-self edges. -/
theorem addEdge_invariant (es : List GraphEdge) (f t : String) (hft : f ≠ t)
    (h : edgeInvariant es) : edgeInvariant (addEdge es f t) := by
  unfold addEdge
  exact edgeInvariant_dedupPush es f t "internal" hft h

/-- `GoAdapter.processCallsInFunction` preserves the combined invariant. -/
theorem goProcess_invariant (symbols : List GraphNode) (caller : GraphNode)
    (fn : GoFunctionCalls) :
    ∀ es, edgeInvariant es →
      edgeInvariant (goProcessCallsInFunction symbols caller es fn) := by
  intro es h
  unfold goProcessCallsInFunction
  apply foldl_preserve _ _ ?hsel
  · apply foldl_preserve _ _ ?hsim
    · exact h
    case hsim =>
      intro b a hb
      dsimp only
      split
      · exact hb
      · split
        · split
          · rename_i callee _ hne
            exact addEdge_invariant _ _ _
              (fun hfe => (by simpa using hne : callee.id ≠ caller.id) hfe.symm) hb
          · exact hb
        · exact hb
  case hsel =>
    intro b a hb
    dsimp only
    split
    · split
      · rename_i callee _ hne
        exact addEdge_invariant _ _ _
          (fun hfe => (by simpa using hne : callee.id ≠ caller.id) hfe.symm) hb
      · exact hb
    · exact hb

/-- `GoAdapter.identifyCalls` establishes the combined invariant. -/
theorem goIdentify_invariant (symbols : List GraphNode)
    (fns : List GoFunctionCalls) : edgeInvariant (goIdentifyCalls symbols fns) := by
  unfold goIdentifyCalls
  apply foldl_preserve _ _ ?_ _ _ edgeInvariant_nil
  intro b a hb
  exact goProcess_invariant symbols a.symbol a b hb

/-- `RustAdapter.processCallQuery` preserves the combined invariant. -/
theorem rustProcess_invariant (symbols : List GraphNode) (caller : GraphNode)
    (callType : RustCallType) (captures : List RustCallCapture) :
    ∀ es, edgeInvariant es →
      edgeInvariant (rustProcessCallQuery symbols caller es callType captures) := by
  intro es h
  unfold rustProcessCallQuery
  apply foldl_preserve _ _ ?_ _ _ h
  intro b a hb
  dsimp only
  split
  · exact hb
  · split
    · split
      · rename_i callee _ hne
        exact edgeInvariant_dedupPush _ _ _ _
          (fun hfe => (by simpa using hne : callee.id ≠ caller.id) hfe.symm) hb
      · exact hb
    · exact hb

/-- `RustAdapter.identifyCalls` establishes the combined invariant. -/
theorem rustIdentify_invariant (symbols : List GraphNode)
    (fns : List RustFunctionCalls) :
    edgeInvariant (rustIdentifyCalls symbols fns) := by
  unfold rustIdentifyCalls
  apply foldl_preserve _ _ ?_ _ _ edgeInvariant_nil
  intro b a hb
  exact rustProcess_invariant _ _ _ _ _
    (rustProcess_invariant _ _ _ _ _
      (rustProcess_invariant _ _ _ _ _
        (rustProcess_invariant _ _ _ _ _
          (rustProcess_invariant _ _ _ _ _ hb))))

/-- If `findSome?` returns a value, some list element produced it. -/
theorem findSome?_exists_of_eq_some {α β : Type} {f : α → Option β}
    {l : List α} {b : β} (h : l.findSome? f = some b) :
    ∃ a ∈ l, f a = some b := by
  induction l with
  | nil => simp [List.findSome?] at h
  | cons x xs ih =>
    rw [List.findSome?_cons] at h
    rcases hf : f x with _ | v
    · rw [hf] at h
      obtain ⟨a, ha, hfa⟩ := ih h
      exact ⟨a, List.mem_cons_of_mem _ ha, hfa⟩
    · rw [hf] at h
      cases h
      exact ⟨x, List.mem_cons_self _ _, hf⟩

/-- C1 (counterexample): in the Solidity builder a function body with two
simple calls to the same resolved callee produces two identical `(from, to)`
edges — `processCallType` pushes with no deduplication, so the claim fails for
the Solidity adapter. -/
theorem c1_solidity_duplicate_edges_counterexample :
    (solGenerateCallGraph dupDemoState dupDemoFns).edges
        = [⟨"C.a()", "C.b()", "internal"⟩, ⟨"C.a()", "C.b()", "internal"⟩]
      ∧ ¬ edgesDedupedByPair (solGenerateCallGraph dupDemoState dupDemoFns).edges := by
  refine ⟨rfl, ?_⟩
  intro h
  rw [show (solGenerateCallGraph dupDemoState dupDemoFns).edges
      = [⟨"C.a()", "C.b()", "internal"⟩, ⟨"C.a()", "C.b()", "internal"⟩] from rfl] at h
  rw [edgesDedupedByPair, List.pairwise_cons] at h
  exact h.1 _ (List.mem_singleton_self _) ⟨rfl, rfl⟩

/-- C1 (amended): the Go and Rust call-graph builders deduplicate edges by
`(from, to)`; the Solidity builder does not (one edge per resolved call
site — see the counterexample). -/
theorem c1_amended_go_rust_dedup :
    (∀ (symbols : List GraphNode) (fns : List GoFunctionCalls),
        edgesDedupedByPair (goGenerateCallGraph symbols fns).edges)
    ∧ (∀ (symbols : List GraphNode) (fns : List RustFunctionCalls),
        edgesDedupedByPair (rustGenerateCallGraph symbols fns).edges) :=
  ⟨fun s f => (goIdentify_invariant s f).1,
   fun s f => (rustIdentify_invariant s f).1⟩

/-- C2 (counterexample): with `C is B`, `B is A` and `f` defined only in the
grandparent `A`, `super.f()` in `C.g` does not resolve and the Solidity
builder emits no edge — `resolveSuperCall` searches only the direct parents,
so the claim (which requires an edge to `A.f`) fails. -/
theorem c2_super_grandparent_counterexample :
    resolveSuperCall superDemoState "f" superDemoG = none
      ∧ (solGenerateCallGraph superDemoState superDemoFns).edges = [] :=
  ⟨rfl, rfl⟩

/-- C2 (amended): a super-call resolves by searching only the caller's
*direct* parent containers in declaration order — any node it returns belongs
to a direct parent; there is no recursion and no visited set on this path, so
a function defined only in a grandparent is not found by `super` (see the
counterexample), although the recursive visited-guarded ancestor search used
for unqualified calls does find it. -/
theorem c2_amended_super_direct_parents_only :
    (∀ (st : SolState) (name : String) (caller node : GraphNode),
        resolveSuperCall st name caller = some node →
        ∃ c parents, caller.contract = some c
          ∧ st.inheritanceGraph.lookup c = some parents
          ∧ ∃ p ∈ parents, node.contract = some p ∧ node.label = name)
    ∧ resolveLocalOrInheritedCall superDemoState "f" superDemoG
        = some superDemoF := by
  constructor
  · intro st name caller node h
    unfold resolveSuperCall at h
    split at h
    · exact absurd h (by simp)
    · rename_i c h1
      split at h
      · exact absurd h (by simp)
      · rename_i parents h2
        split at h
        · exact absurd h (by simp)
        · obtain ⟨p, hp, hfind⟩ := findSome?_exists_of_eq_some h
          have hpred := List.find?_some hfind
          simp only [Bool.and_eq_true, beq_iff_eq] at hpred
          exact ⟨c, parents, h1, h2, p, hp, hpred.1, hpred.2⟩
  · rfl

/-- Witness for C2 (amended) at the repository's own direct-parent test
scenario: `Child.foo` super-calls `foo`, which resolves to `Parent.foo`. -/
theorem c2_amended_super_direct_parents_only_witness :
    ∃ c parents, superChildFoo.contract = some c
      ∧ superDirectState.inheritanceGraph.lookup c = some parents
      ∧ ∃ p ∈ parents, superParentFoo.contract = some p
          ∧ superParentFoo.label = "foo" :=
  c2_amended_super_direct_parents_only.1 superDirectState "foo" superChildFoo
    superParentFoo rfl

/-- Every path produced by the fuelled traversal has length at most
`fuel + 1`. -/
theorem resolvePathsFuel_length_le (g : CallGraph) :
    ∀ (fuel : ℕ) (currentId : String) (stack : List String) (p : List String),
      p ∈ resolvePathsFuel g fuel currentId stack → p.length ≤ fuel + 1 := by
  intro fuel
  induction fuel with
  | zero =>
    intro currentId stack p hp
    simp only [resolvePathsFuel] at hp
    split at hp <;> simp_all
  | succ fuel ih =>
    intro currentId stack p hp
    simp only [resolvePathsFuel] at hp
    split at hp
    · simp_all
    · split at hp
      · simp_all
      · rw [foldl_append_flatMap] at hp
        simp only [List.nil_append, List.mem_flatMap, List.mem_map] at hp
        obtain ⟨e, he, tail, htail, rfl⟩ := hp
        have := ih e.toId (currentId :: stack) tail htail
        simp only [List.length_cons]
        omega

/-- C4: the execution-path traversal terminates on every finite call graph —
every produced path is bounded by the remaining depth budget plus one — and on
the two-node mutually recursive graph `A→B→A` the entrypoint `A` yields
exactly one path, ending in the synthetic leaf `"A (Recursive)"` at depth 2 of
the path. -/
theorem c4_execution_paths_cycle_safety :
    resolvePaths twoNodeCycleGraph "A" 0 [] = [["A", "B", "A (Recursive)"]]
    ∧ ∀ (g : CallGraph) (currentId : String) (depth : ℕ) (stack : List String)
        (p : List String), p ∈ resolvePaths g currentId depth stack →
        p.length ≤ (MAX_DEPTH - depth) + 1 := by
  refine ⟨rfl, ?_⟩
  intro g currentId depth stack p hp
  exact resolvePathsFuel_length_le g (MAX_DEPTH - depth) currentId stack p hp

/-- Witness for C4's bound at the concrete two-node cycle. -/
theorem c4_execution_paths_cycle_safety_witness :
    (["A", "B", "A (Recursive)"] : List String).length ≤ (MAX_DEPTH - 0) + 1 :=
  c4_execution_paths_cycle_safety.2 twoNodeCycleGraph "A" 0 [] _
    (by rw [c4_execution_paths_cycle_safety.1]; exact List.mem_singleton_self _)

/-- C10: every edge emitted by the Go and Rust call-graph builders satisfies
`from ≠ to` — a call resolving to the calling function itself never produces
an edge, so direct self-recursion is invisible in these graphs. -/
theorem c10_no_self_edges :
    (∀ (symbols : List GraphNode) (fns : List GoFunctionCalls),
        ((goGenerateCallGraph symbols fns).edges.all
          (fun e => e.fromId != e.toId)) = true)
    ∧ (∀ (symbols : List GraphNode) (fns : List RustFunctionCalls),
        ((rustGenerateCallGraph symbols fns).edges.all
          (fun e => e.fromId != e.toId)) = true) := by
  constructor
  · intro symbols fns
    rw [List.all_eq_true]
    intro e he
    simpa using (goIdentify_invariant symbols fns).2 e he
  · intro symbols fns
    rw [List.all_eq_true]
    intro e he
    simpa using (rustIdentify_invariant symbols fns).2 e he

/-- C3 (counterexample): the extractor records `endLine = 3` for a function
whose body block starts on line 1 — `endLine` is the function node's last
line, not the line where the body starts, so the claim fails. -/
theorem c3_end_line_counterexample :
    (extractSignaturesWithRanges sigDemoFile).map (fun r => r.endLine) = [3]
      ∧ sigDemoFile.captures.map
          (fun c => (c.node.body.getD ⟨0, 0⟩).startRow + 1) = [1]
      ∧ (3 : ℕ) ≠ 1 :=
  ⟨rfl, rfl, by decide⟩

/-- C3 (amended): for every parseable file, each `SignatureRange` records
`startLine`/`endLine` as the 1-indexed first and *last* line of the whole
function node (body included); only the signature *text* is clipped at the
body start. -/
theorem c3_amended_end_line_is_node_end (file : ParsedFile) :
    (extractSignaturesWithRanges file).map (fun r => (r.startLine, r.endLine))
      = (file.captures.filter (fun c => c.name == "function")).map
          (fun c => (c.node.startRow + 1, c.node.endRow + 1)) := by
  unfold extractSignaturesWithRanges
  have H : ∀ (caps : List SigCapture) (init : List SignatureRange),
      (caps.foldl (fun results cap =>
        if cap.name == "function" then
          let node := cap.node
          let rawSignature :=
            match node.body with
            | some b => jsSubstring file.content node.startIndex b.startIndex
            | none => node.text
          let signature := truncateSignature (cleanSignature rawSignature)
          results ++ [⟨signature, node.startRow + 1, node.endRow + 1⟩]
        else results) init).map (fun r => (r.startLine, r.endLine))
        = init.map (fun r => (r.startLine, r.endLine))
          ++ (caps.filter (fun c => c.name == "function")).map
              (fun c => (c.node.startRow + 1, c.node.endRow + 1)) := by
    intro caps
    induction caps with
    | nil => intro init; simp
    | cons c cs ih =>
      intro init
      by_cases hc : c.name == "function"
      · simp only [List.foldl_cons, hc, if_true, List.filter_cons_of_pos,
          List.map_cons, ih]
        simp
      · simp only [List.foldl_cons, hc, if_false, List.filter_cons_of_neg,
          ih]
        simp [hc]
  simpa using H file.captures []

end AuditorAddon
